import Mathlib

/-!
# mesytec-mvlc: Ethernet packet header decoding and packet bookkeeping

A shallow embedding of `src/mvlc_impl_eth.h`.

Machine integers are natural numbers with explicit reductions: a `u16` result
is reduced modulo `2 ^ 16`, a `u32` word is a natural number below `2 ^ 32`.
Pointers are natural-number byte addresses, `nullptr` is address `0`, and
arithmetic on a `u32 *` advances by four bytes per element.

The header only uses the protocol constants of the namespaces `header0` and
`header1`; their values live in a file that is not part of the sources at
hand, so the embedding takes them as a parameter (`HeaderConstants`).
-/

namespace mesytec.mvlc.eth

/-! ## Constants -/

/-- Protocol constants of `eth::header0` and `eth::header1` used by
`PayloadHeaderInfo`. The declaring file is not among the sources, so every
function that reads one of them takes a value of this structure. -/
structure HeaderConstants where
  PacketChannelShift : Nat
  PacketChannelMask : Nat
  PacketNumberShift : Nat
  PacketNumberMask : Nat
  NumDataWordsShift : Nat
  NumDataWordsMask : Nat
  TimestampShift : Nat
  TimestampMask : Nat
  HeaderPointerShift : Nat
  HeaderPointerMask : Nat
  NoHeaderPointerPresent : Nat
  deriving Repr, DecidableEq

/-- Modelled from the spec: `HeaderBytes`, the size of the two leading 32-bit
header words, is declared in a file that is not among the sources; the spec
gives `HeaderSize (8 bytes)` and the source comment says `2 * 32 bit`. -/
def HeaderBytes : Nat := 8

/-- Value of `sizeof(u32)`. -/
def sizeofU32 : Nat := 4

/-- Conversion of an unsigned value to `u16`. -/
def toU16 (x : Nat) : Nat := x % 2 ^ 16

/-! ## PayloadHeaderInfo -/

/-- Two header words `u32 header0`, `u32 header1` (each below `2 ^ 32`). -/
structure PayloadHeaderInfo where
  header0 : Nat
  header1 : Nat
  deriving Repr, DecidableEq

namespace PayloadHeaderInfo

/-- The accessor `packetChannel`, source lines 100-103. -/
def packetChannel (c : HeaderConstants) (h : PayloadHeaderInfo) : Nat :=
  toU16 ((h.header0 >>> c.PacketChannelShift) &&& c.PacketChannelMask)

/-- The accessor `packetNumber`, source lines 105-108. -/
def packetNumber (c : HeaderConstants) (h : PayloadHeaderInfo) : Nat :=
  toU16 ((h.header0 >>> c.PacketNumberShift) &&& c.PacketNumberMask)

/-- The accessor `dataWordCount`, source lines 110-113. -/
def dataWordCount (c : HeaderConstants) (h : PayloadHeaderInfo) : Nat :=
  toU16 ((h.header0 >>> c.NumDataWordsShift) &&& c.NumDataWordsMask)

/-- The accessor `udpTimestamp`, source lines 115-118. -/
def udpTimestamp (c : HeaderConstants) (h : PayloadHeaderInfo) : Nat :=
  toU16 ((h.header1 >>> c.TimestampShift) &&& c.TimestampMask)

/-- The accessor `nextHeaderPointer`, source lines 120-123. -/
def nextHeaderPointer (c : HeaderConstants) (h : PayloadHeaderInfo) : Nat :=
  toU16 ((h.header1 >>> c.HeaderPointerShift) &&& c.HeaderPointerMask)

/-- The accessor `isNextHeaderPointerPresent`, source lines 125-128: the
comparison result converted to `u16`. -/
def isNextHeaderPointerPresent (c : HeaderConstants) (h : PayloadHeaderInfo) : Nat :=
  toU16 (if h.nextHeaderPointer c ≠ c.NoHeaderPointerPresent then 1 else 0)

end PayloadHeaderInfo

/-! ## PacketReadResult -/

/-- The fields of `PacketReadResult` that its accessors read. `buffer` is the
byte address of the destination buffer and `mem a` is the `u32` read through a
`u32 *` at byte address `a` (host byte order). `bytesTransferred` is a `u16`,
`lostPackets` an `s32`. The `std::error_code` is read by no accessor. -/
structure PacketReadResult where
  buffer : Nat
  mem : Nat → Nat
  bytesTransferred : Nat
  lostPackets : Int

namespace PacketReadResult

/-- The predicate `hasHeaders`, source line 138. -/
def hasHeaders (r : PacketReadResult) : Bool :=
  decide (r.bytesTransferred ≥ HeaderBytes)

/-- Element 0 of the buffer seen as `u32 *`, source line 140. -/
def header0 (r : PacketReadResult) : Nat := r.mem (r.buffer + 0 * sizeofU32)

/-- Element 1 of the buffer seen as `u32 *`, source line 141. -/
def header1 (r : PacketReadResult) : Nat := r.mem (r.buffer + 1 * sizeofU32)

/-- The header view `PayloadHeaderInfo{header0(), header1()}`. -/
def headerInfo (r : PacketReadResult) : PayloadHeaderInfo :=
  { header0 := r.header0, header1 := r.header1 }

/-- Source lines 143-146. -/
def packetChannel (c : HeaderConstants) (r : PacketReadResult) : Nat :=
  r.headerInfo.packetChannel c

/-- Source lines 148-151. -/
def packetNumber (c : HeaderConstants) (r : PacketReadResult) : Nat :=
  r.headerInfo.packetNumber c

/-- Source lines 153-156. -/
def dataWordCount (c : HeaderConstants) (r : PacketReadResult) : Nat :=
  r.headerInfo.dataWordCount c

/-- Source lines 158-161. -/
def udpTimestamp (c : HeaderConstants) (r : PacketReadResult) : Nat :=
  r.headerInfo.udpTimestamp c

/-- Source lines 163-166. -/
def nextHeaderPointer (c : HeaderConstants) (r : PacketReadResult) : Nat :=
  r.headerInfo.nextHeaderPointer c

/-- The expression `(bytesTransferred - HeaderBytes) / sizeof(u32)` converted
to `u16`, with the subtraction carried out in unsigned arithmetic of `bits`
bits (`32` for an `unsigned` constant, `64` for a `size_t` one, and `64` as
well for a signed constant, whose difference is converted to `size_t` by the
division). -/
def availablePayloadWordsAt (bits : Nat) (r : PacketReadResult) : Nat :=
  toU16 (((r.bytesTransferred + 2 ^ bits - HeaderBytes) % 2 ^ bits) / sizeofU32)

/-- The accessor `availablePayloadWords`, source lines 168-171, with the
protocol constant taken as a 32-bit unsigned value. -/
def availablePayloadWords (r : PacketReadResult) : Nat :=
  availablePayloadWordsAt 32 r

/-- The accessor `leftoverBytes`, source lines 173-176. -/
def leftoverBytes (r : PacketReadResult) : Nat :=
  toU16 (r.bytesTransferred % sizeofU32)

/-- A call of `leftoverBytes` as a state transformer: the method is declared
`const`, so the object after the call is the object before it. -/
def leftoverBytesCall (r : PacketReadResult) : Nat × PacketReadResult :=
  (r.leftoverBytes, r)

/-- The byte address `payloadBegin`, source lines 178-181. -/
def payloadBegin (r : PacketReadResult) : Nat :=
  r.buffer + HeaderBytes

/-- The byte address `payloadEnd`, source lines 183-186: `u32 *` arithmetic
advances by `sizeof(u32)` bytes per word. -/
def payloadEnd (r : PacketReadResult) : Nat :=
  r.payloadBegin + sizeofU32 * r.availablePayloadWords

/-- The predicate `isNextHeaderPointerValid`, source lines 188-196. -/
def isNextHeaderPointerValid (c : HeaderConstants) (r : PacketReadResult) : Bool :=
  let nhp := r.nextHeaderPointer c
  if nhp ≠ c.NoHeaderPointerPresent then
    decide (r.payloadBegin + sizeofU32 * nhp < r.payloadEnd)
  else
    true

end PacketReadResult

/-! ## ReceiveBuffer -/

/-- The private `Impl::ReceiveBuffer`, source lines 272-284. `buffer` holds
the bytes of the array, `start` and `end_` are byte addresses (`end` is a
reserved word), `nullptr` is `0`. -/
structure ReceiveBuffer where
  buffer : List Nat
  start : Nat
  end_ : Nat
  deriving Repr, DecidableEq

namespace ReceiveBuffer

/-- Default construction: the member initialisers set both cursors to
`nullptr`; the array content is whatever the storage holds. -/
def construct (storage : List Nat) : ReceiveBuffer :=
  { buffer := storage, start := 0, end_ := 0 }

/-- The method `available`, source line 282: the pointer difference (a signed
64-bit value) converted to `size_t`. -/
def available (b : ReceiveBuffer) : Nat :=
  (((b.end_ : Int) - (b.start : Int)) % (2 ^ 64 : Int)).toNat

/-- The method `reset`, source line 283. -/
def reset (b : ReceiveBuffer) : ReceiveBuffer :=
  { b with start := 0, end_ := 0 }

end ReceiveBuffer

/-! ## Packet loss -/

/-- Modelled from the spec: `calc_packet_loss` is only declared in the header
(source line 296); its body is in a translation unit that is not among the
sources. The spec gives `lossCount = (currentSeq - lastSeq - 1) mod M`, with
`M` the modulus of the sequence-number field. -/
def calc_packet_loss (M : Nat) (lastPacketNumber packetNumber : Nat) : Int :=
  ((packetNumber : Int) - (lastPacketNumber : Int) - 1) % (M : Int)

/-! ## Example constants -/

/-- A layout used to instantiate the theorems: a 2-bit channel at bit 28, a
12-bit packet number at bit 16, a 13-bit word count at bit 0, a 20-bit
timestamp at bit 12 and a 12-bit header pointer at bit 0. -/
def exampleConstants : HeaderConstants :=
  { PacketChannelShift := 28, PacketChannelMask := 2 ^ 2 - 1
    PacketNumberShift := 16, PacketNumberMask := 2 ^ 12 - 1
    NumDataWordsShift := 0, NumDataWordsMask := 2 ^ 13 - 1
    TimestampShift := 12, TimestampMask := 2 ^ 20 - 1
    HeaderPointerShift := 0, HeaderPointerMask := 2 ^ 12 - 1
    NoHeaderPointerPresent := 2 ^ 12 - 1 }

/-- Masking a word before shifting it down is the same as shifting it down
and masking with the unshifted mask. -/
theorem shiftRight_and_mask (x m s : Nat) :
    (x >>> s) &&& m = (x &&& (m <<< s)) >>> s := by
  apply Nat.eq_of_testBit_eq
  intro i
  simp [Nat.testBit_shiftRight, Nat.testBit_and, Nat.testBit_shiftLeft]

/-- A field accessor only sees the bits below its mask placed at its shift. -/
theorem field_congr (x y m s : Nat) (h : x &&& (m <<< s) = y &&& (m <<< s)) :
    toU16 ((x >>> s) &&& m) = toU16 ((y >>> s) &&& m) := by
  rw [shiftRight_and_mask x, shiftRight_and_mask y, h]

/-- Flipping bits outside a field leaves the accessor result alone. -/
theorem field_xor_outside (x d m s : Nat) (h : d &&& (m <<< s) = 0) :
    toU16 (((x ^^^ d) >>> s) &&& m) = toU16 ((x >>> s) &&& m) := by
  apply field_congr
  apply Nat.eq_of_testBit_eq
  intro i
  have hd := congrArg (fun n => Nat.testBit n i) h
  simp only [Nat.testBit_and, Nat.zero_testBit] at hd
  simp only [Nat.testBit_and, Nat.testBit_xor]
  cases hx : x.testBit i <;> cases hdb : d.testBit i <;>
    cases hm : (m <<< s).testBit i <;> simp_all

/-- With at least the header bytes received, the payload word count is the
plain quotient: neither the unsigned subtraction nor the `u16` conversion
changes it. -/
theorem availablePayloadWords_of_hasHeaders (r : PacketReadResult)
    (h8 : r.bytesTransferred ≥ HeaderBytes) (h16 : r.bytesTransferred < 2 ^ 16) :
    r.availablePayloadWords = (r.bytesTransferred - HeaderBytes) / 4 := by
  unfold PacketReadResult.availablePayloadWords PacketReadResult.availablePayloadWordsAt
    toU16 sizeofU32
  unfold HeaderBytes at *
  omega

/-! ## Header word 0 -/

/-- C7: the three accessors of header word 0 are determined by `header0` and
the two accessors of header word 1 by `header1`; an accessor gives the same
result on two headers whose words agree on the bits of its mask placed at its
shift; and flipping any bits `d` outside that range leaves its result as it
was. -/
theorem header_fields_independent (c : HeaderConstants) (h k : PayloadHeaderInfo) :
    (h.header0 = k.header0 →
      h.packetChannel c = k.packetChannel c ∧ h.packetNumber c = k.packetNumber c ∧
      h.dataWordCount c = k.dataWordCount c) ∧
    (h.header1 = k.header1 →
      h.udpTimestamp c = k.udpTimestamp c ∧
      h.nextHeaderPointer c = k.nextHeaderPointer c) ∧
    (h.header0 &&& (c.PacketChannelMask <<< c.PacketChannelShift)
        = k.header0 &&& (c.PacketChannelMask <<< c.PacketChannelShift) →
      h.packetChannel c = k.packetChannel c) ∧
    (h.header0 &&& (c.PacketNumberMask <<< c.PacketNumberShift)
        = k.header0 &&& (c.PacketNumberMask <<< c.PacketNumberShift) →
      h.packetNumber c = k.packetNumber c) ∧
    (h.header0 &&& (c.NumDataWordsMask <<< c.NumDataWordsShift)
        = k.header0 &&& (c.NumDataWordsMask <<< c.NumDataWordsShift) →
      h.dataWordCount c = k.dataWordCount c) ∧
    (h.header1 &&& (c.TimestampMask <<< c.TimestampShift)
        = k.header1 &&& (c.TimestampMask <<< c.TimestampShift) →
      h.udpTimestamp c = k.udpTimestamp c) ∧
    (h.header1 &&& (c.HeaderPointerMask <<< c.HeaderPointerShift)
        = k.header1 &&& (c.HeaderPointerMask <<< c.HeaderPointerShift) →
      h.nextHeaderPointer c = k.nextHeaderPointer c) ∧
    (∀ d e : Nat,
      (d &&& (c.PacketChannelMask <<< c.PacketChannelShift) = 0 →
        PayloadHeaderInfo.packetChannel c
          { header0 := h.header0 ^^^ d, header1 := e } = h.packetChannel c) ∧
      (d &&& (c.PacketNumberMask <<< c.PacketNumberShift) = 0 →
        PayloadHeaderInfo.packetNumber c
          { header0 := h.header0 ^^^ d, header1 := e } = h.packetNumber c) ∧
      (d &&& (c.NumDataWordsMask <<< c.NumDataWordsShift) = 0 →
        PayloadHeaderInfo.dataWordCount c
          { header0 := h.header0 ^^^ d, header1 := e } = h.dataWordCount c) ∧
      (d &&& (c.TimestampMask <<< c.TimestampShift) = 0 →
        PayloadHeaderInfo.udpTimestamp c
          { header0 := e, header1 := h.header1 ^^^ d } = h.udpTimestamp c) ∧
      (d &&& (c.HeaderPointerMask <<< c.HeaderPointerShift) = 0 →
        PayloadHeaderInfo.nextHeaderPointer c
          { header0 := e, header1 := h.header1 ^^^ d } = h.nextHeaderPointer c)) := by
  refine ⟨?_, ?_, ?_, ?_, ?_, ?_, ?_, ?_⟩
  · intro e
    simp only [PayloadHeaderInfo.packetChannel, PayloadHeaderInfo.packetNumber,
      PayloadHeaderInfo.dataWordCount, e, and_self]
  · intro e
    simp only [PayloadHeaderInfo.udpTimestamp, PayloadHeaderInfo.nextHeaderPointer, e,
      and_self]
  · exact fun e => field_congr _ _ _ _ e
  · exact fun e => field_congr _ _ _ _ e
  · exact fun e => field_congr _ _ _ _ e
  · exact fun e => field_congr _ _ _ _ e
  · exact fun e => field_congr _ _ _ _ e
  · intro d e
    exact ⟨fun hd => field_xor_outside _ _ _ _ hd, fun hd => field_xor_outside _ _ _ _ hd,
      fun hd => field_xor_outside _ _ _ _ hd, fun hd => field_xor_outside _ _ _ _ hd,
      fun hd => field_xor_outside _ _ _ _ hd⟩

/-- C7, instantiated: the words `0xfabcffff` and `0x0abc0000` agree on the
packet-number bits `0x0fff0000` and differ everywhere else, and both decode to
packet number `0xabc`. -/
theorem header_fields_independent_witness :
    ((0xfabcffff : Nat) &&& ((2 ^ 12 - 1) <<< 16) = 0x0abc0000 &&& ((2 ^ 12 - 1) <<< 16)) ∧
    PayloadHeaderInfo.packetNumber exampleConstants { header0 := 0xfabcffff, header1 := 1 }
      = PayloadHeaderInfo.packetNumber exampleConstants
          { header0 := 0x0abc0000, header1 := 2 } :=
  ⟨by decide,
    (header_fields_independent exampleConstants { header0 := 0xfabcffff, header1 := 1 }
      { header0 := 0x0abc0000, header1 := 2 }).2.2.2.1 (by decide)⟩

/-! ## Packet lengths -/

/-- C5: `hasHeaders` holds exactly when at least `HeaderBytes = 8` bytes were
transferred; with exactly 8 bytes it holds and there are no payload words;
with 7 bytes it fails. -/
theorem hasHeaders_boundary (r : PacketReadResult) :
    (r.hasHeaders = true ↔ r.bytesTransferred ≥ HeaderBytes) ∧
    HeaderBytes = 8 ∧
    (r.bytesTransferred = 8 → r.hasHeaders = true ∧ r.availablePayloadWords = 0) ∧
    (r.bytesTransferred = 7 → r.hasHeaders = false) := by
  refine ⟨by simp [PacketReadResult.hasHeaders], rfl, ?_, ?_⟩
  · intro h
    simp [PacketReadResult.hasHeaders, PacketReadResult.availablePayloadWords,
      PacketReadResult.availablePayloadWordsAt, HeaderBytes, sizeofU32, toU16, h]
  · intro h
    simp [PacketReadResult.hasHeaders, HeaderBytes, h]

/-- C5, instantiated at a packet of exactly eight bytes. -/
theorem hasHeaders_boundary_witness :
    PacketReadResult.hasHeaders
        { buffer := 0, mem := fun _ => 0, bytesTransferred := 8, lostPackets := 0 } = true ∧
    PacketReadResult.availablePayloadWords
        { buffer := 0, mem := fun _ => 0, bytesTransferred := 8, lostPackets := 0 } = 0 :=
  (hasHeaders_boundary
    { buffer := 0, mem := fun _ => 0, bytesTransferred := 8, lostPackets := 0 }).2.2.1 rfl

/-- C6: for every byte count, in particular every 16-bit one, `leftoverBytes`
is the count modulo 4, lies in `[0, 3]`, is non-zero exactly when the count is
not a multiple of 4, and the call leaves `bytesTransferred` as it was. -/
theorem leftoverBytes_residue (r : PacketReadResult) :
    r.leftoverBytes = r.bytesTransferred % 4 ∧
    r.leftoverBytes ≤ 3 ∧
    (r.leftoverBytes ≠ 0 ↔ ¬ 4 ∣ r.bytesTransferred) ∧
    r.leftoverBytesCall.1 = r.bytesTransferred % 4 ∧
    r.leftoverBytesCall.2.bytesTransferred = r.bytesTransferred := by
  have e : r.leftoverBytes = r.bytesTransferred % 4 := by
    unfold PacketReadResult.leftoverBytes toU16 sizeofU32
    omega
  refine ⟨e, ?_, ?_, e, rfl⟩
  · omega
  · rw [e, Nat.dvd_iff_mod_eq_zero]

/-- C6, instantiated at a packet of 1001 bytes, one byte past a multiple of 4. -/
theorem leftoverBytes_residue_witness :
    PacketReadResult.leftoverBytes
        { buffer := 0, mem := fun _ => 0, bytesTransferred := 1001, lostPackets := 0 } = 1 :=
  (leftoverBytes_residue
    { buffer := 0, mem := fun _ => 0, bytesTransferred := 1001, lostPackets := 0 }).1

/-- C8: with at least the header bytes received, headers, whole payload words
and leftover bytes add up to the bytes transferred, the leftover is below 4,
and the two `u16` results are the untruncated quotient and remainder. -/
theorem length_decomposition (r : PacketReadResult)
    (h8 : r.bytesTransferred ≥ HeaderBytes) (h16 : r.bytesTransferred < 2 ^ 16) :
    HeaderBytes + 4 * r.availablePayloadWords + r.leftoverBytes = r.bytesTransferred ∧
    r.leftoverBytes < 4 ∧
    r.availablePayloadWords = (r.bytesTransferred - HeaderBytes) / 4 ∧
    r.leftoverBytes = r.bytesTransferred % 4 := by
  have ea := availablePayloadWords_of_hasHeaders r h8 h16
  have el : r.leftoverBytes = r.bytesTransferred % 4 := by
    unfold PacketReadResult.leftoverBytes toU16 sizeofU32
    omega
  unfold HeaderBytes at *
  refine ⟨?_, ?_, ea, el⟩ <;> omega

/-- C8, instantiated at a packet of 1001 bytes: `8 + 4 * 248 + 1 = 1001`. -/
theorem length_decomposition_witness :
    HeaderBytes + 4 * PacketReadResult.availablePayloadWords
        { buffer := 0, mem := fun _ => 0, bytesTransferred := 1001, lostPackets := 0 }
      + PacketReadResult.leftoverBytes
        { buffer := 0, mem := fun _ => 0, bytesTransferred := 1001, lostPackets := 0 }
      = 1001 :=
  (length_decomposition
    { buffer := 0, mem := fun _ => 0, bytesTransferred := 1001, lostPackets := 0 }
    (by decide) (by decide)).1

/-! ## Payload range -/

/-- C9 (as stated, refuted): a packet with no bytes transferred reports 65534
payload words, whichever unsigned width (32 or 64 bits) the subtraction uses,
so four times the word count is far above the bytes received and `payloadEnd`
lies past them. -/
theorem payload_range_fails_for_short_packet :
    PacketReadResult.availablePayloadWords
        { buffer := 0, mem := fun _ => 0, bytesTransferred := 0, lostPackets := 0 } = 65534 ∧
    PacketReadResult.availablePayloadWordsAt 64
        { buffer := 0, mem := fun _ => 0, bytesTransferred := 0, lostPackets := 0 } = 65534 ∧
    ¬ (4 * PacketReadResult.availablePayloadWords
        { buffer := 0, mem := fun _ => 0, bytesTransferred := 0, lostPackets := 0 } ≤ 0) ∧
    ¬ (PacketReadResult.payloadEnd
        { buffer := 0, mem := fun _ => 0, bytesTransferred := 0, lostPackets := 0 } ≤ 0 + 0) := by
  decide

/-- C9 (amended): for every byte count in `[8, 65535]` the payload word count
is `(bytesTransferred - HeaderBytes) / 4`, the header bytes plus four times
that count do not exceed the bytes transferred, and `payloadEnd` does not lie
past the received bytes. -/
theorem payload_range_within_received (r : PacketReadResult)
    (h8 : r.bytesTransferred ≥ HeaderBytes) (h16 : r.bytesTransferred ≤ 65535) :
    r.availablePayloadWords = (r.bytesTransferred - HeaderBytes) / 4 ∧
    4 * r.availablePayloadWords ≤ r.bytesTransferred ∧
    HeaderBytes + 4 * r.availablePayloadWords ≤ r.bytesTransferred ∧
    r.payloadEnd ≤ r.buffer + r.bytesTransferred := by
  have ea := availablePayloadWords_of_hasHeaders r h8 (by omega)
  unfold PacketReadResult.payloadEnd PacketReadResult.payloadBegin sizeofU32
  unfold HeaderBytes at *
  refine ⟨ea, ?_, ?_, ?_⟩ <;> omega

/-- C9 (amended), instantiated at a packet of 1001 bytes in a buffer at
address 4096. -/
theorem payload_range_within_received_witness :
    PacketReadResult.payloadEnd
        { buffer := 4096, mem := fun _ => 0, bytesTransferred := 1001, lostPackets := 0 }
      ≤ 4096 + 1001 :=
  (payload_range_within_received
    { buffer := 4096, mem := fun _ => 0, bytesTransferred := 1001, lostPackets := 0 }
    (by decide) (by decide)).2.2.2

/-! ## Header pointer validity -/

/-- C3: for a packet with at least the header bytes, the header pointer is
valid exactly when it is the sentinel or below the number of payload words,
that is when the word it addresses, counted from the word after the two header
words, lies wholly inside the received bytes. With no payload words a
non-sentinel pointer is invalid, and a pointer reported as not present is
valid. -/
theorem nextHeaderPointer_valid_iff (c : HeaderConstants) (r : PacketReadResult)
    (h8 : r.bytesTransferred ≥ HeaderBytes) (h16 : r.bytesTransferred < 2 ^ 16) :
    (r.isNextHeaderPointerValid c = true ↔
      (r.nextHeaderPointer c = c.NoHeaderPointerPresent ∨
        r.nextHeaderPointer c < r.availablePayloadWords)) ∧
    (r.nextHeaderPointer c < r.availablePayloadWords ↔
      HeaderBytes + 4 * (r.nextHeaderPointer c + 1) ≤ r.bytesTransferred) ∧
    (r.availablePayloadWords = 0 → r.nextHeaderPointer c ≠ c.NoHeaderPointerPresent →
      r.isNextHeaderPointerValid c = false) ∧
    (r.headerInfo.isNextHeaderPointerPresent c = 0 →
      r.isNextHeaderPointerValid c = true) := by
  have ea := availablePayloadWords_of_hasHeaders r h8 h16
  have key : r.isNextHeaderPointerValid c = true ↔
      (r.nextHeaderPointer c = c.NoHeaderPointerPresent ∨
        r.nextHeaderPointer c < r.availablePayloadWords) := by
    unfold PacketReadResult.isNextHeaderPointerValid PacketReadResult.payloadEnd sizeofU32
    by_cases hs : r.nextHeaderPointer c = c.NoHeaderPointerPresent
    · simp [hs]
    · simp only [ne_eq, hs, not_false_eq_true, ↓reduceIte, decide_eq_true_eq, false_or]
      omega
  refine ⟨key, ?_, ?_, ?_⟩
  · unfold HeaderBytes at *
    omega
  · intro h0 hs
    have hn : ¬ r.isNextHeaderPointerValid c = true := by
      rw [key]
      rintro (h | h)
      · exact hs h
      · omega
    simpa using hn
  · intro hp
    rw [key]
    left
    unfold PayloadHeaderInfo.isNextHeaderPointerPresent toU16 at hp
    by_contra hs
    have hs2 : r.headerInfo.nextHeaderPointer c ≠ c.NoHeaderPointerPresent := hs
    simp [hs2] at hp

/-- C3, instantiated: a 16-byte packet has two payload words, so the header
pointer `1` read from its second header word is valid. -/
theorem nextHeaderPointer_valid_iff_witness :
    PacketReadResult.isNextHeaderPointerValid exampleConstants
        { buffer := 4096, mem := fun a => if a = 4100 then 1 else 0,
          bytesTransferred := 16, lostPackets := 0 } = true :=
  (nextHeaderPointer_valid_iff exampleConstants
    { buffer := 4096, mem := fun a => if a = 4100 then 1 else 0,
      bytesTransferred := 16, lostPackets := 0 }
    (by decide) (by decide)).1.2 (Or.inr (by decide))

/-! ## ReceiveBuffer cursors -/

/-- C10: `available` is `end - start` whenever `start ≤ end` (for cursors whose
distance fits a `size_t`); a freshly constructed buffer has nothing available;
and from every buffer state `reset` gives a state with `start = end` and
nothing available, so `start ≤ end` holds after construction and after
`reset`. -/
theorem receiveBuffer_available (b : ReceiveBuffer) (storage : List Nat) :
    (b.start ≤ b.end_ → b.end_ - b.start < 2 ^ 64 → b.available = b.end_ - b.start) ∧
    (ReceiveBuffer.construct storage).available = 0 ∧
    (ReceiveBuffer.construct storage).start ≤ (ReceiveBuffer.construct storage).end_ ∧
    b.reset.start = b.reset.end_ ∧
    b.reset.available = 0 ∧
    b.reset.start ≤ b.reset.end_ ∧
    b.reset.buffer = b.buffer := by
  refine ⟨?_, by simp [ReceiveBuffer.available, ReceiveBuffer.construct], Nat.le_refl _,
    rfl, by simp [ReceiveBuffer.available, ReceiveBuffer.reset], Nat.le_refl _, rfl⟩
  intro hle hlt
  unfold ReceiveBuffer.available
  have h0 : (0 : Int) ≤ (b.end_ : Int) - (b.start : Int) := by omega
  have h1 : (b.end_ : Int) - (b.start : Int) < (2 ^ 64 : Int) := by omega
  rw [Int.emod_eq_of_lt h0 h1]
  omega

/-- C10, instantiated: cursors at addresses 4104 and 5096 leave 992 bytes. -/
theorem receiveBuffer_available_witness :
    ReceiveBuffer.available { buffer := [], start := 4104, end_ := 5096 } = 5096 - 4104 :=
  (receiveBuffer_available { buffer := [], start := 4104, end_ := 5096 } []).1
    (by decide) (by decide)

/-! ## Packet loss -/

/-- Reduction of an integer that is off by at most one modulus from its
residue. -/
theorem emod_of_shifted (a M : Int) (r : Int) (h0 : 0 ≤ r) (h1 : r < M)
    (q : Int) (e : a = r + M * q) : a % M = r := by
  rw [e, Int.add_mul_emod_self_left]
  exact Int.emod_eq_of_lt h0 h1

/-- C4: for packet numbers `last`, `cur` below the modulus `M = 2 ^ W`,
`calc_packet_loss` is `(cur - last - 1) mod M`, a value in `[0, M - 1]`; it is
`0` for consecutive numbers, also for `M - 1` followed by `0`; `k - 1` for `n`
followed by `n + k` modulo `M` with `1 ≤ k < M`; and `M - 1` for a
duplicate. -/
theorem calc_packet_loss_modular (W last cur : Nat) (hl : last < 2 ^ W) (hc : cur < 2 ^ W) :
    calc_packet_loss (2 ^ W) last cur = (((cur + 2 ^ W - last - 1) % 2 ^ W : Nat) : Int) ∧
    0 ≤ calc_packet_loss (2 ^ W) last cur ∧
    calc_packet_loss (2 ^ W) last cur ≤ ((2 ^ W - 1 : Nat) : Int) ∧
    calc_packet_loss (2 ^ W) last ((last + 1) % 2 ^ W) = 0 ∧
    calc_packet_loss (2 ^ W) (2 ^ W - 1) 0 = 0 ∧
    (∀ k : Nat, 1 ≤ k → k < 2 ^ W →
      calc_packet_loss (2 ^ W) last ((last + k) % 2 ^ W) = ((k - 1 : Nat) : Int)) ∧
    calc_packet_loss (2 ^ W) last last = ((2 ^ W - 1 : Nat) : Int) := by
  have hM : 0 < 2 ^ W := Nat.pos_pow_of_pos W (by decide)
  generalize 2 ^ W = M at *
  have hMi : (0 : Int) < (M : Int) := by exact_mod_cast hM
  have step : ∀ k : Nat, 1 ≤ k → k ≤ M →
      calc_packet_loss M last ((last + k) % M) = ((k - 1 : Nat) : Int) := by
    intro k hk1 hkM
    unfold calc_packet_loss
    have hdm := Nat.div_add_mod (last + k) M
    have hcast : ((M : Int) * (((last + k) / M : Nat) : Int)
        + (((last + k) % M : Nat) : Int)) = (last : Int) + (k : Int) := by
      exact_mod_cast hdm
    apply emod_of_shifted _ _ _ (by omega) (by omega) (-(((last + k) / M : Nat) : Int))
    rw [mul_neg]
    omega
  have hval : calc_packet_loss M last cur = (((cur + M - last - 1) % M : Nat) : Int) := by
    unfold calc_packet_loss
    by_cases hlt : last < cur
    · have e : (cur + M - last - 1) % M = cur - last - 1 := by
        have : cur + M - last - 1 = (cur - last - 1) + M := by omega
        rw [this, Nat.add_mod_right]
        exact Nat.mod_eq_of_lt (by omega)
      rw [e]
      apply emod_of_shifted _ _ _ (by omega) (by omega) 0
      omega
    · have e : (cur + M - last - 1) % M = cur + M - last - 1 :=
        Nat.mod_eq_of_lt (by omega)
      rw [e]
      apply emod_of_shifted _ _ _ (by omega) (by omega) (-1)
      omega
  have hlt := Nat.mod_lt (cur + M - last - 1) hM
  refine ⟨hval, ?_, ?_, ?_, ?_, ?_, ?_⟩
  · rw [hval]
    omega
  · rw [hval]
    omega
  · simpa using step 1 (le_refl 1) hM
  · unfold calc_packet_loss
    apply emod_of_shifted _ _ _ (le_refl 0) hMi (-1)
    omega
  · exact fun k hk1 hkM => step k hk1 (Nat.le_of_lt hkM)
  · have h := step M hM (le_refl M)
    rwa [Nat.add_mod_right, Nat.mod_eq_of_lt hl] at h

/-- C4, instantiated for a 12-bit packet number: `4095` followed by `2` means
two packets (`0` and `1`) were lost. -/
theorem calc_packet_loss_modular_witness :
    (4095 : Nat) < 2 ^ 12 ∧ (2 : Nat) < 2 ^ 12 ∧
    calc_packet_loss (2 ^ 12) 4095 2 = (((2 + 2 ^ 12 - 4095 - 1) % 2 ^ 12 : Nat) : Int) ∧
    (((2 + 2 ^ 12 - 4095 - 1) % 2 ^ 12 : Nat) : Int) = 2 :=
  ⟨by decide, by decide,
    (calc_packet_loss_modular 12 4095 2 (by decide) (by decide)).1, by decide⟩

end mesytec.mvlc.eth
